import Mathlib

/-!
Verification development for a brokered request-relay server.

The repository contains two request-store implementations:

* `database.py` — a store keyed by `(genre, request_id)` with a per-genre
  counter allocator (`get_next_request_id`), a conditional
  `update_request_status` (guarded by `status = 'pending'`), `lock_request`,
  `release_stale_locks` (keyed on `locked_at`), `timeout_old_requests`
  (returning the pre-transition rows) and `cleanup_old_requests`.
  Embedded below in namespace `DB`.

* `app.py` — an inline store keyed by `(genre, id)` whose identifiers are
  5-character uuid prefixes, whose `update_request_status` is unconditional,
  whose `release_stale_locks` is keyed on `status = 'locked'` and
  `created_at`, and whose `timeout_old_requests` returns only a count.
  Embedded below in namespace `App`.

Tables are modelled as lists of rows; SQL `UPDATE ... WHERE`, `DELETE ...
WHERE` and `SELECT ... WHERE` become `updWhere`, a `filter`-based delete and
`filter`/`find?`.  `datetime.now()` arguments become explicit `Nat`
timestamps (ISO-8601 strings compare like their timestamps).  SQLite
three-valued logic for `NULL < x` (never true) is modelled by `optLt`.
Outbound HTTP effects of a handler are returned explicitly as a list.
-/

/-- SQL `UPDATE table SET <f> WHERE <p>`: apply `f` exactly to the rows
satisfying `p`, keeping order and multiplicity. -/
def updWhere {α : Type} (p : α → Bool) (f : α → α) (l : List α) : List α :=
  l.map fun r => if p r then f r else r

/-- `cursor.rowcount` of an `UPDATE`/`DELETE` with predicate `p`. -/
def countWhere {α : Type} (p : α → Bool) (l : List α) : Nat :=
  (l.filter p).length

/-! ### Decimal rendering of identifiers

`database.py` renders the counter as `f"{new_counter:05d}"`: the decimal
digits of the counter, left-padded with `'0'` to a minimum width of 5.
The digits are produced by a fuel-based least-significant-first divmod loop
(the fuel `n` is always enough, proved below via the round-trip lemma). -/

/-- Least-significant-first decimal digits of `n`, with explicit fuel. -/
def toDigitsRev (fuel n : Nat) : List Nat :=
  match fuel with
  | 0 => []
  | f + 1 => if n = 0 then [] else n % 10 :: toDigitsRev f (n / 10)

/-- Value of a least-significant-first digit list. -/
def valOfDigits : List Nat → Nat
  | [] => 0
  | d :: ds => d + 10 * valOfDigits ds

/-- Python `f"{n:05d}"`: decimal digits, zero-padded on the left to width 5. -/
def pad5 (n : Nat) : String :=
  let ds := (toDigitsRev n n).reverse.map Nat.digitChar
  String.mk (List.replicate (5 - ds.length) '0' ++ ds)

/-- Read a decimal string back as a number (ASCII fold, '0' = 48). -/
def decodeDec (s : String) : Nat :=
  s.data.foldl (fun a c => 10 * a + (c.toNat - 48)) 0

/-- Terminal statuses as enumerated in both `cleanup_old_requests` variants:
`status IN ('success', 'failed', 'timeout')`. -/
def isTerminalStatus (s : String) : Bool :=
  s == "success" || s == "failed" || s == "timeout"

/-- SQLite comparison `col < cutoff` where `col` may be NULL: a NULL
comparison is never satisfied. -/
def optLt (t : Option Nat) (cutoff : Nat) : Bool :=
  match t with
  | some v => decide (v < cutoff)
  | none => false

namespace DB

/-! Embedding of `src/database.py`: table `requests` (lines 26-39), counter
allocator (lines 62-94) and request operations (lines 96-235). -/

/-- A row of the `requests` table of `database.py` (schema lines 26-39).
The surrogate autoincrement `id` plays no role and is omitted; the logical
key is `(genre, request_id)`. -/
structure Req where
  genre : String
  request_id : String
  callback_url : String
  status : String
  locked_by : Option String
  locked_at : Option Nat
  created_at : Nat
  completed_at : Option Nat
  deriving DecidableEq

/-- The `counters` table: one counter per genre (primary key `genre`). -/
abbrev Counters : Type := List (String × Nat)

/-- WHERE clause `genre = ? AND request_id = ?`. -/
def reqKeyIs (genre request_id : String) (r : Req) : Bool :=
  r.genre == genre && r.request_id == request_id

/-- The `UPDATE counters SET counter = counter + 1 WHERE genre = ?` step of
`get_next_request_id` (database.py lines 72-76). -/
def bumpCounter (genre : String) (cs : Counters) : Counters :=
  cs.map fun e => if e.1 == genre then (e.1, e.2 + 1) else e

/-- The `SELECT counter FROM counters WHERE genre = ?` step
(database.py lines 79-81). -/
def lookupCounter (genre : String) (cs : Counters) : Option Nat :=
  (cs.find? fun e => e.1 == genre).map fun e => e.2

/-- `get_next_request_id` (database.py lines 62-94): increment the genre's
counter, read it back, render it as a zero-padded 5-wide decimal.  If the
genre has no counter row the transaction rolls back and the exception
propagates, modelled as `none` (the caller keeps the original counters). -/
def get_next_request_id (genre : String) (cs : Counters) :
    Option (Counters × String) :=
  let cs2 := bumpCounter genre cs
  match lookupCounter genre cs2 with
  | some c => some (cs2, pad5 c)
  | none => none

/-- `create_request` (database.py lines 96-108): mint an identifier, insert a
`pending` row with `created_at = now`, return the identifier. -/
def create_request (genre callback_url : String) (now : Nat)
    (cs : Counters) (rows : List Req) :
    Option ((Counters × List Req) × String) :=
  match get_next_request_id genre cs with
  | some (cs2, rid) =>
      let row : Req :=
        { genre := genre, request_id := rid, callback_url := callback_url,
          status := "pending", locked_by := none, locked_at := none,
          created_at := now, completed_at := none }
      some ((cs2, rows ++ [row]), rid)
  | none => none

/-- `get_request_detail` (database.py lines 123-132). -/
def get_request_detail (genre request_id : String) (rows : List Req) :
    Option Req :=
  rows.find? (reqKeyIs genre request_id)

/-- `update_request_status` (database.py lines 134-149): conditional update
guarded by `status = 'pending'`; sets `status`, `completed_at = now`,
`locked_by = pc_id`; returns `rows_affected > 0`. -/
def update_request_status (genre request_id status : String)
    (pc_id : Option String) (now : Nat) (rows : List Req) :
    List Req × Bool :=
  let p := fun r => reqKeyIs genre request_id r && r.status == "pending"
  (updWhere p
      (fun r =>
        { r with
          status := status, completed_at := some now, locked_by := pc_id })
      rows,
   decide (0 < countWhere p rows))

/-- `lock_request` (database.py lines 151-165): conditional update guarded by
`status = 'pending' AND locked_by IS NULL`; sets `locked_by`, `locked_at`;
returns `rows_affected > 0`. -/
def lock_request (genre request_id pc_id : String) (now : Nat)
    (rows : List Req) : List Req × Bool :=
  let p := fun r => reqKeyIs genre request_id r && r.status == "pending" &&
    r.locked_by == none
  (updWhere p
      (fun r =>
        { r with locked_by := some pc_id, locked_at := some now })
      rows,
   decide (0 < countWhere p rows))

/-- `cleanup_old_requests` (database.py lines 167-183): delete terminal rows
whose `completed_at` is older than the cutoff; returns the deleted count. -/
def cleanup_old_requests (cutoff : Nat) (rows : List Req) :
    List Req × Nat :=
  let p := fun r => isTerminalStatus r.status && optLt r.completed_at cutoff
  (rows.filter fun r => !(p r), countWhere p rows)

/-- `release_stale_locks` (database.py lines 185-204): clear
`locked_by`/`locked_at` on rows with a non-NULL `locked_by`, a `locked_at`
older than the cutoff and `status = 'pending'`; returns the count. -/
def release_stale_locks (cutoff : Nat) (rows : List Req) :
    List Req × Nat :=
  let p := fun r => r.locked_by != none && optLt r.locked_at cutoff &&
    r.status == "pending"
  (updWhere p (fun r => { r with locked_by := none, locked_at := none }) rows,
   countWhere p rows)

/-- Projection returned by the timeout scan:
`SELECT genre, request_id, callback_url`. -/
structure TimeoutRow where
  genre : String
  request_id : String
  callback_url : String
  deriving DecidableEq

/-- The selection/transition predicate of `timeout_old_requests`:
`status = 'pending' AND created_at < cutoff`. -/
def timeoutPred (cutoff : Nat) (r : Req) : Bool :=
  r.status == "pending" && decide (r.created_at < cutoff)

/-- `timeout_old_requests` (database.py lines 206-235): select the rows still
`pending` and older than the cutoff, transition exactly those rows to
`timeout` with `completed_at = now`, and return the pre-transition rows. -/
def timeout_old_requests (cutoff now : Nat) (rows : List Req) :
    List Req × List TimeoutRow :=
  (updWhere (timeoutPred cutoff)
      (fun r => { r with status := "timeout", completed_at := some now }) rows,
   (rows.filter (timeoutPred cutoff)).map fun r =>
     { genre := r.genre, request_id := r.request_id,
       callback_url := r.callback_url })

/-- `get_pending_requests` (database.py lines 110-121): all rows with
`status = 'pending'`, ordered by `created_at` ascending. -/
def insertByCreated (r : Req) : List Req → List Req
  | [] => [r]
  | x :: xs =>
      if r.created_at ≤ x.created_at then r :: x :: xs
      else x :: insertByCreated r xs

def sortByCreated : List Req → List Req
  | [] => []
  | x :: xs => insertByCreated x (sortByCreated xs)

def get_pending_requests (rows : List Req) : List Req :=
  sortByCreated (rows.filter fun r => r.status == "pending")

/-- The counters provisioned by `init_db` (database.py lines 49-57). -/
def initCounters : Counters :=
  [("logincheckrequest", 0), ("connectioncheck", 0)]

/-- States reachable through the store's operations, starting from the
freshly initialized database, with completion reports restricted to the
terminal statuses the workers are specified to send. -/
inductive Reach : Counters × List Req → Prop
  | init : Reach (initCounters, [])
  | create {s : Counters × List Req} {s2 : Counters × List Req} {rid : String}
      (genre callback_url : String) (now : Nat) :
      Reach s → create_request genre callback_url now s.1 s.2 = some (s2, rid) →
      Reach s2
  | update {s : Counters × List Req}
      (genre request_id status : String) (pc_id : Option String) (now : Nat) :
      isTerminalStatus status = true → Reach s →
      Reach (s.1, (update_request_status genre request_id status pc_id now s.2).1)
  | lock {s : Counters × List Req}
      (genre request_id pc_id : String) (now : Nat) :
      Reach s → Reach (s.1, (lock_request genre request_id pc_id now s.2).1)
  | release {s : Counters × List Req} (cutoff : Nat) :
      Reach s → Reach (s.1, (release_stale_locks cutoff s.2).1)
  | escalate {s : Counters × List Req} (cutoff now : Nat) :
      Reach s → Reach (s.1, (timeout_old_requests cutoff now s.2).1)
  | purge {s : Counters × List Req} (cutoff : Nat) :
      Reach s → Reach (s.1, (cleanup_old_requests cutoff s.2).1)

/-- N-fold iteration of `create_request`, threading counters and rows and
collecting the allocated identifiers in call order. -/
def createN (genre callback_url : String) (now : Nat) :
    Nat → Counters × List Req → Option ((Counters × List Req) × List String)
  | 0, s => some (s, [])
  | n + 1, s =>
      match create_request genre callback_url now s.1 s.2 with
      | some (s2, rid) =>
          match createN genre callback_url now n s2 with
          | some (s3, ids) => some (s3, rid :: ids)
          | none => none
      | none => none

end DB

namespace App

/-! Embedding of the inline store of `src/app.py` (lines 70-280) and the
endpoints and scheduled jobs built on it. -/

/-- A row of the `requests` table of `app.py` (schema lines 77-88): keyed by
`id` with no `locked_at` column and an optional opaque `data` payload. -/
structure Req where
  id : String
  genre : String
  callback_url : String
  status : String
  locked_by : Option String
  created_at : Nat
  completed_at : Option Nat
  data : Option String
  deriving DecidableEq

/-- Python `s.zfill(5)`: left-pad with '0' to a minimum width of 5. -/
def zfill5 (s : String) : String :=
  String.mk (List.replicate (5 - s.length) '0' ++ s.data)

/-- The identifier minted by `create_request` (app.py line 96):
`str(uuid.uuid4())[:5].zfill(5)`.  The argument stands for the random
uuid4 rendering drawn at that call, made explicit because it is the sole
source of nondeterminism. -/
def mk_request_id (uuid_draw : String) : String :=
  zfill5 (uuid_draw.take 5)

/-- Delay, in seconds, of the deletion timer armed by `create_request`
(app.py line 112: `threading.Timer(120.0, ...)`). -/
def request_delete_delay : Nat := 120

/-- Age threshold, in seconds, used by the janitor's timeout job
(app.py line 841: `timeout_old_requests(minutes=10)`). -/
def janitor_timeout_age : Nat := 10 * 60

/-- Retention age, in seconds, used by the janitor's cleanup job
(app.py line 845: `cleanup_old_requests(days=30)`). -/
def retention_age : Nat := 30 * 24 * 60 * 60

/-- `create_request` (app.py lines 94-114): insert a `pending` row whose id
is a padded 5-character uuid prefix, arm a 120-second deletion timer, and
return the identifier.  The schema declares `id TEXT PRIMARY KEY`
(app.py line 79) and the `INSERT` is not guarded, so a colliding
identifier makes sqlite3 raise `IntegrityError` before the commit: no row
is stored, no timer armed, nothing returned (the endpoint answers 500) —
modelled as `none`.  On success: some (rows, request_id, timer delay). -/
def create_request (genre callback_url : String) (data : Option String)
    (uuid_draw : String) (now : Nat) (rows : List Req) :
    Option (List Req × String × Nat) :=
  let request_id := mk_request_id uuid_draw
  if rows.any (fun r => r.id == request_id) then none
  else
    let row : Req :=
      { id := request_id, genre := genre, callback_url := callback_url,
        status := "pending", locked_by := none, created_at := now,
        completed_at := none, data := data }
    some (rows ++ [row], request_id, request_delete_delay)

/-- `delete_request_after_timeout` (app.py lines 116-130):
`DELETE FROM requests WHERE id = ? AND genre = ?` — unconditional on
status. -/
def delete_request_after_timeout (genre request_id : String)
    (rows : List Req) : List Req :=
  rows.filter fun r => !(r.id == request_id && r.genre == genre)

/-- `get_request_detail` (app.py lines 132-157). -/
def get_request_detail (genre request_id : String) (rows : List Req) :
    Option Req :=
  rows.find? fun r => r.genre == genre && r.id == request_id

/-- `update_request_status` (app.py lines 159-187): UNCONDITIONAL update of
any row matching `(genre, id)` — there is no `status = 'pending'` guard.
`completed_at` is set only when the new status is `success` or `failed`
(line 170), and cleared otherwise.  Returns `rows_affected > 0`. -/
def update_request_status (genre request_id status : String)
    (locked_by : Option String) (now : Nat) (rows : List Req) :
    List Req × Bool :=
  let completed_at : Option Nat :=
    if status == "success" || status == "failed" then some now else none
  let p := fun r => r.genre == genre && r.id == request_id
  (updWhere p
      (fun r =>
        { r with
          status := status, locked_by := locked_by,
          completed_at := completed_at })
      rows,
   decide (0 < countWhere p rows))

/-- `release_stale_locks` (app.py lines 217-237): keyed on
`status = 'locked' AND created_at < threshold` (the schema has no
`locked_at`); sets `status = 'pending'`, `locked_by = NULL`. -/
def release_stale_locks (cutoff : Nat) (rows : List Req) :
    List Req × Nat :=
  let p := fun r => r.status == "locked" && decide (r.created_at < cutoff)
  (updWhere p
      (fun r => { r with status := "pending", locked_by := none })
      rows,
   countWhere p rows)

/-- `timeout_old_requests` (app.py lines 239-259): transitions
`pending` rows older than the threshold to `timeout` with
`completed_at = now`; returns only the COUNT of affected rows. -/
def timeout_old_requests (cutoff now : Nat) (rows : List Req) :
    List Req × Nat :=
  let p := fun r => r.status == "pending" && decide (r.created_at < cutoff)
  (updWhere p
      (fun r => { r with status := "timeout", completed_at := some now })
      rows,
   countWhere p rows)

/-- `cleanup_old_requests` (app.py lines 261-280): delete terminal rows with
`completed_at` older than the threshold; returns the deleted count. -/
def cleanup_old_requests (cutoff : Nat) (rows : List Req) :
    List Req × Nat :=
  let p := fun r => isTerminalStatus r.status && optLt r.completed_at cutoff
  (rows.filter fun r => !(p r), countWhere p rows)

/-- An outbound HTTP POST made by a handler, modelled explicitly. -/
structure OutboundPost where
  address : String
  genre : String
  request_id : String
  status : String
  pc_id : Option String
  deriving DecidableEq

/-- The `/api/response` handler `receive_response` (app.py lines 582-611):
it calls `update_request_status` and returns `{'success': updated}`.  Its
outbound HTTP effects are returned explicitly as the third component: the
handler performs none — in particular it never POSTs to the request's
`callback_url`. -/
def receive_response (genre request_id status : String)
    (pc_id : Option String) (now : Nat) (rows : List Req) :
    List Req × Bool × List OutboundPost :=
  let o := update_request_status genre request_id status pc_id now rows
  (o.1, o.2, [])

/-- The janitor body `scheduled_tasks` (app.py lines 838-841):
`release_stale_locks(minutes=5)` then `timeout_old_requests(minutes=10)`.
Outbound HTTP effects are returned explicitly: there are none — timed-out
requests trigger no callback delivery. -/
def scheduled_tasks (now : Nat) (rows : List Req) :
    List Req × List OutboundPost :=
  let o1 := release_stale_locks (now - 5 * 60) rows
  let o2 := timeout_old_requests (now - 10 * 60) now o1.1
  (o2.1, [])

/-- States of the `app.py` store reachable through its operations, starting
from the empty table created by `init_db`.  The `update` constructor is
unrestricted because `/api/response` forwards whatever status the worker
posted. -/
inductive Reach : List Req → Prop
  | init : Reach []
  | create {s s2 : List Req} {rid : String} {d : Nat}
      (genre callback_url : String) (data : Option String)
      (uuid_draw : String) (now : Nat) :
      Reach s →
      create_request genre callback_url data uuid_draw now s =
        some (s2, rid, d) →
      Reach s2
  | update {s : List Req} (genre request_id status : String)
      (locked_by : Option String) (now : Nat) :
      Reach s → Reach (update_request_status genre request_id status locked_by now s).1
  | expire {s : List Req} (genre request_id : String) :
      Reach s → Reach (delete_request_after_timeout genre request_id s)
  | release {s : List Req} (cutoff : Nat) :
      Reach s → Reach (release_stale_locks cutoff s).1
  | timeout {s : List Req} (cutoff now : Nat) :
      Reach s → Reach (timeout_old_requests cutoff now s).1
  | cleanup {s : List Req} (cutoff : Nat) :
      Reach s → Reach (cleanup_old_requests cutoff s).1

end App


/-- Sample pending row of the `database.py` store, for concrete runs. -/
def dbRowP : DB.Req :=
  { genre := "g", request_id := "00001", callback_url := "http://cb",
    status := "pending", locked_by := none, locked_at := none,
    created_at := 0, completed_at := none }

/-- Sample pending row of the `app.py` store, for concrete runs. -/
def appRowP : App.Req :=
  { id := "00001", genre := "g", callback_url := "http://cb",
    status := "pending", locked_by := none, created_at := 0,
    completed_at := none, data := none }

/-- A second, distinct pending row of the `app.py` store. -/
def appRowP2 : App.Req :=
  { appRowP with id := "00002", callback_url := "http://cb2" }

/-- The row obtained by reporting status `timeout` for a fresh request
through `app.py`'s unconditional update: terminal status, NULL
`completed_at`. -/
def appRowT : App.Req :=
  { id := "0000a", genre := "g", callback_url := "http://cb",
    status := "timeout", locked_by := some "pc", created_at := 0,
    completed_at := none, data := none }

/-! ### Supporting lemmas -/

theorem mem_updWhere {α : Type} {p : α → Bool} {f : α → α} {l : List α} {x : α}
    (hx : x ∈ updWhere p f l) :
    (∃ r, r ∈ l ∧ p r = true ∧ x = f r) ∨ (x ∈ l ∧ p x = false) := by
  rcases List.mem_map.mp hx with ⟨r, hr, heq⟩
  by_cases h : p r
  · left
    exact ⟨r, hr, h, by simp [h] at heq; exact heq.symm⟩
  · right
    simp only [Bool.not_eq_true] at h
    simp [h] at heq
    subst heq
    exact ⟨hr, h⟩

theorem updWhere_mem_true {α : Type} {p : α → Bool} {f : α → α} {l : List α} {r : α}
    (hr : r ∈ l) (hp : p r = true) : f r ∈ updWhere p f l := by
  have := List.mem_map_of_mem (fun r => if p r then f r else r) hr
  simpa [updWhere, hp] using this

theorem updWhere_mem_false {α : Type} {p : α → Bool} {f : α → α} {l : List α} {r : α}
    (hr : r ∈ l) (hp : p r = false) : r ∈ updWhere p f l := by
  have := List.mem_map_of_mem (fun r => if p r then f r else r) hr
  simpa [updWhere, hp] using this

theorem updWhere_eq_self {α : Type} {p : α → Bool} {f : α → α} {l : List α}
    (h : ∀ r ∈ l, p r = false) : updWhere p f l = l := by
  induction l with
  | nil => rfl
  | cons a t ih =>
    have ha : p a = false := h a (List.mem_cons_self a t)
    have ht : ∀ r ∈ t, p r = false := fun r hr => h r (List.mem_cons_of_mem a hr)
    simp [updWhere, ha] at ih ⊢
    exact ih ht

theorem updWhere_map_eq {α β : Type} {p : α → Bool} {f : α → α} (g : α → β) {l : List α}
    (h : ∀ r, g (f r) = g r) : (updWhere p f l).map g = l.map g := by
  unfold updWhere
  rw [List.map_map]
  apply List.map_congr_left
  intro a _
  by_cases hp : p a <;> simp [hp, h]

theorem countWhere_eq_zero {α : Type} {p : α → Bool} {l : List α} :
    countWhere p l = 0 ↔ ∀ r ∈ l, p r = false := by
  unfold countWhere
  rw [List.length_eq_zero, List.filter_eq_nil_iff]
  simp

theorem countWhere_pos {α : Type} {p : α → Bool} {l : List α} :
    0 < countWhere p l ↔ ∃ r ∈ l, p r = true := by
  rw [Nat.pos_iff_ne_zero, Ne, countWhere_eq_zero]
  push_neg
  simp

/-- Fold for `List.foldl` congruence over list members only. -/
theorem foldl_congr_mem {α β : Type} {l : List α} {f g : β → α → β} :
    (∀ a x, x ∈ l → f a x = g a x) → ∀ b, l.foldl f b = l.foldl g b := by
  induction l with
  | nil => intro _ b; rfl
  | cons a t ih =>
    intro h b
    simp only [List.foldl_cons]
    rw [h b a (List.mem_cons_self a t)]
    exact ih (fun a x hx => h a x (List.mem_cons_of_mem _ hx)) _

theorem toDigitsRev_lt (fuel : Nat) : ∀ n, ∀ d ∈ toDigitsRev fuel n, d < 10 := by
  induction fuel with
  | zero => intro n d hd; simp [toDigitsRev] at hd
  | succ f ih =>
    intro n d hd
    by_cases h : n = 0
    · simp [toDigitsRev, h] at hd
    · simp only [toDigitsRev, h, if_false, List.mem_cons] at hd
      rcases hd with hd | hd
      · subst hd; exact Nat.mod_lt _ (by omega)
      · exact ih (n / 10) d hd

theorem valOfDigits_toDigitsRev (fuel : Nat) : ∀ n, n ≤ fuel →
    valOfDigits (toDigitsRev fuel n) = n := by
  induction fuel with
  | zero => intro n hn; interval_cases n; rfl
  | succ f ih =>
    intro n hn
    by_cases h : n = 0
    · simp [toDigitsRev, h, valOfDigits]
    · have hdiv : n / 10 ≤ f := by
        have : n / 10 < n := Nat.div_lt_self (Nat.pos_of_ne_zero h) (by omega)
        omega
      simp only [toDigitsRev, h, if_false, valOfDigits]
      rw [ih (n / 10) hdiv]
      exact Nat.mod_add_div n 10

theorem digitChar_toNat_sub (d : Nat) (h : d < 10) :
    (Nat.digitChar d).toNat - 48 = d := by
  interval_cases d <;> decide

theorem foldl_decode_replicate_zero (k : Nat) :
    (List.replicate k '0').foldl (fun a c => 10 * a + (c.toNat - 48)) 0 = 0 := by
  induction k with
  | zero => rfl
  | succ m ih => simpa [List.replicate_succ] using ih

theorem foldl_horner (ds : List Nat) : ∀ acc : Nat,
    ds.reverse.foldl (fun a d => 10 * a + d) acc =
      acc * 10 ^ ds.length + valOfDigits ds := by
  induction ds with
  | nil => intro acc; simp [valOfDigits]
  | cons d t ih =>
    intro acc
    simp only [List.reverse_cons, List.foldl_append, List.foldl_cons, List.foldl_nil,
      List.length_cons, valOfDigits]
    rw [ih acc]
    ring

theorem decodeDec_pad5 (n : Nat) : decodeDec (pad5 n) = n := by
  unfold decodeDec pad5
  simp only [List.foldl_append]
  rw [foldl_decode_replicate_zero, List.foldl_map]
  rw [foldl_congr_mem (g := fun a d => 10 * a + d)
    (by
      intro a x hx
      have hx2 : x ∈ toDigitsRev n n := List.mem_reverse.mp hx
      rw [digitChar_toNat_sub x (toDigitsRev_lt n n x hx2)]) 0]
  rw [foldl_horner]
  simpa using valOfDigits_toDigitsRev n n (le_refl n)

theorem pad5_injective : Function.Injective pad5 := by
  intro a b h
  have := congrArg decodeDec h
  rwa [decodeDec_pad5, decodeDec_pad5] at this

theorem filter_false_of_not_mem {α : Type} {l : List α} {q : α → Bool} {r : α}
    (hr : r ∈ l) (hn : r ∉ l.filter q) : q r = false := by
  by_contra h
  exact hn (List.mem_filter.mpr ⟨hr, by revert h; cases q r <;> simp⟩)

theorem isTerminalStatus_ne_pending {s : String} (h : isTerminalStatus s = true) :
    (s == "pending") = false := by
  unfold isTerminalStatus at h
  simp only [Bool.or_eq_true, beq_iff_eq] at h
  rcases h with (h | h) | h <;> subst h <;> decide

theorem DB.mem_insertByCreated {r x : DB.Req} : ∀ {l : List DB.Req},
    x ∈ DB.insertByCreated r l ↔ x = r ∨ x ∈ l := by
  intro l
  induction l with
  | nil => simp [DB.insertByCreated]
  | cons a t ih =>
    by_cases h : r.created_at ≤ a.created_at
    · simp [DB.insertByCreated, h, List.mem_cons]
    · simp only [DB.insertByCreated, h, if_false, List.mem_cons, ih]
      tauto

theorem DB.mem_sortByCreated {x : DB.Req} : ∀ {l : List DB.Req},
    x ∈ DB.sortByCreated l ↔ x ∈ l := by
  intro l
  induction l with
  | nil => simp [DB.sortByCreated]
  | cons a t ih =>
    simp only [DB.sortByCreated, DB.mem_insertByCreated, ih, List.mem_cons]

/-- C7: `cleanup_old_requests` — in both `database.py` (lines 167-183) and
`app.py` (lines 261-280) — deletes only rows whose status is terminal
(`success`, `failed`, `timeout`) and whose `completed_at` is older than the
retention cutoff; every non-terminal row remains in the store regardless of
its age. -/
theorem c7_purge_only_terminal (cutoff : Nat) (rows : List DB.Req)
    (arows : List App.Req) :
    (∀ r ∈ rows, isTerminalStatus r.status = false →
      r ∈ (DB.cleanup_old_requests cutoff rows).1) ∧
    (∀ r ∈ rows, r ∉ (DB.cleanup_old_requests cutoff rows).1 →
      isTerminalStatus r.status = true ∧
        ∃ t, r.completed_at = some t ∧ t < cutoff) ∧
    (∀ r ∈ arows, isTerminalStatus r.status = false →
      r ∈ (App.cleanup_old_requests cutoff arows).1) ∧
    (∀ r ∈ arows, r ∉ (App.cleanup_old_requests cutoff arows).1 →
      isTerminalStatus r.status = true ∧
        ∃ t, r.completed_at = some t ∧ t < cutoff) := by
  refine ⟨?_, ?_, ?_, ?_⟩
  · intro r hr hterm
    exact List.mem_filter.mpr ⟨hr, by simp [DB.cleanup_old_requests, hterm]⟩
  · intro r hr hn
    have hq := filter_false_of_not_mem hr hn
    simp only [DB.cleanup_old_requests, Bool.not_eq_false', Bool.and_eq_true] at hq
    refine ⟨hq.1, ?_⟩
    cases hcomp : r.completed_at with
    | none => rw [hcomp] at hq; simp [optLt] at hq
    | some t =>
      refine ⟨t, rfl, ?_⟩
      have := hq.2
      rw [hcomp] at this
      simpa [optLt] using this
  · intro r hr hterm
    exact List.mem_filter.mpr ⟨hr, by simp [App.cleanup_old_requests, hterm]⟩
  · intro r hr hn
    have hq := filter_false_of_not_mem hr hn
    simp only [App.cleanup_old_requests, Bool.not_eq_false', Bool.and_eq_true] at hq
    refine ⟨hq.1, ?_⟩
    cases hcomp : r.completed_at with
    | none => rw [hcomp] at hq; simp [optLt] at hq
    | some t =>
      refine ⟨t, rfl, ?_⟩
      have := hq.2
      rw [hcomp] at this
      simpa [optLt] using this

/-- C7 witness: a pending row of age 0 against cutoff 10 survives both
purges. -/
theorem c7_witness :
    dbRowP ∈ (DB.cleanup_old_requests 10 [dbRowP]).1 ∧
    appRowP ∈ (App.cleanup_old_requests 10 [appRowP]).1 := by
  have h := c7_purge_only_terminal 10 [dbRowP] [appRowP]
  exact ⟨h.1 dbRowP (by decide) (by decide),
    h.2.2.1 appRowP (by decide) (by decide)⟩

/-- C9: `lock_request` (database.py lines 151-165) returns true only when the
target row has `status = 'pending'` and `locked_by IS NULL`; of two lock
calls on the same request with no intervening release, the first wins and
the second returns false with `locked_by` still naming the first worker. -/
theorem c9_lock_mutual_exclusion (rows : List DB.Req) (genre rid pc1 pc2 : String)
    (t1 t2 : Nat)
    (hkey : ∀ r ∈ rows, DB.reqKeyIs genre rid r = true →
      r.status = "pending" ∧ r.locked_by = none)
    (hex : ∃ r ∈ rows, DB.reqKeyIs genre rid r = true) :
    (∀ rows2 : List DB.Req, (DB.lock_request genre rid pc1 t1 rows2).2 = true ↔
      ∃ r ∈ rows2, (DB.reqKeyIs genre rid r && r.status == "pending" &&
        r.locked_by == none) = true) ∧
    (DB.lock_request genre rid pc1 t1 rows).2 = true ∧
    (DB.lock_request genre rid pc2 t2 (DB.lock_request genre rid pc1 t1 rows).1).2
      = false ∧
    (DB.lock_request genre rid pc2 t2 (DB.lock_request genre rid pc1 t1 rows).1).1
      = (DB.lock_request genre rid pc1 t1 rows).1 ∧
    (∀ r ∈ (DB.lock_request genre rid pc1 t1 rows).1,
      DB.reqKeyIs genre rid r = true → r.locked_by = some pc1) := by
  have hall : ∀ x ∈ (DB.lock_request genre rid pc1 t1 rows).1,
      (DB.reqKeyIs genre rid x && x.status == "pending" && x.locked_by == none)
        = false := by
    intro x hx
    simp only [DB.lock_request] at hx
    rcases mem_updWhere hx with ⟨r0, _, _, rfl⟩ | ⟨_, hpx⟩
    · simp
    · exact hpx
  refine ⟨?_, ?_, ?_, ?_, ?_⟩
  · intro rows2
    simp only [DB.lock_request, decide_eq_true_eq]
    exact countWhere_pos
  · simp only [DB.lock_request, decide_eq_true_eq]
    apply countWhere_pos.mpr
    obtain ⟨r, hr, hkeyr⟩ := hex
    obtain ⟨h1, h2⟩ := hkey r hr hkeyr
    exact ⟨r, hr, by simp [hkeyr, h1, h2]⟩
  · simp only [DB.lock_request, decide_eq_true_eq] at hall ⊢
    have h0 : countWhere (fun r => DB.reqKeyIs genre rid r &&
        r.status == "pending" && r.locked_by == none)
        (updWhere (fun r => DB.reqKeyIs genre rid r && r.status == "pending" &&
          r.locked_by == none)
          (fun r => { r with locked_by := some pc1, locked_at := some t1 })
          rows) = 0 :=
      countWhere_eq_zero.mpr hall
    simp [h0]
  · simp only [DB.lock_request] at hall ⊢
    exact updWhere_eq_self hall
  · intro r hr hkeyr
    simp only [DB.lock_request] at hr
    rcases mem_updWhere hr with ⟨r0, _, _, rfl⟩ | ⟨hr2, hpx⟩
    · rfl
    · obtain ⟨h1, h2⟩ := hkey r hr2 hkeyr
      rw [hkeyr, h1, h2] at hpx
      simp at hpx

/-- C9 witness: concrete two-lock run on a single pending unlocked row. -/
theorem c9_witness :
    (DB.lock_request "g" "00001" "pc1" 5 [dbRowP]).2 = true ∧
    (DB.lock_request "g" "00001" "pc2" 9
      (DB.lock_request "g" "00001" "pc1" 5 [dbRowP]).1).2 = false := by
  have h := c9_lock_mutual_exclusion [dbRowP] "g" "00001" "pc1" "pc2" 5 9
    (by decide) ⟨dbRowP, by decide, by decide⟩
  exact ⟨h.2.1, h.2.2.1⟩

/-- C10: a successful `lock_request` sets `locked_by`/`locked_at` but leaves
`status = 'pending'` (no status is ever written by the lock), so the locked
row is still listed by `get_pending_requests` (database.py lines 110-121). -/
theorem c10_locked_row_stays_pending (rows : List DB.Req) (genre rid pc : String)
    (now : Nat) :
    ((DB.lock_request genre rid pc now rows).1.map (fun r => r.status) =
      rows.map fun r => r.status) ∧
    (∀ r ∈ rows,
      (DB.reqKeyIs genre rid r && r.status == "pending" &&
        r.locked_by == none) = true →
      ({ r with locked_by := some pc, locked_at := some now } : DB.Req) ∈
          (DB.lock_request genre rid pc now rows).1 ∧
        ({ r with locked_by := some pc, locked_at := some now } : DB.Req).status
          = "pending" ∧
        ({ r with locked_by := some pc, locked_at := some now } : DB.Req) ∈
          DB.get_pending_requests (DB.lock_request genre rid pc now rows).1) := by
  constructor
  · simp only [DB.lock_request]
    apply updWhere_map_eq
    intro r
    rfl
  · intro r hr hp
    have hstat : r.status = "pending" := by
      have := hp
      simp only [Bool.and_eq_true, beq_iff_eq] at this
      exact this.1.2
    have hmem : ({ r with locked_by := some pc, locked_at := some now } : DB.Req) ∈
        (DB.lock_request genre rid pc now rows).1 := by
      simp only [DB.lock_request]
      exact updWhere_mem_true hr hp
    refine ⟨hmem, hstat, ?_⟩
    unfold DB.get_pending_requests
    rw [DB.mem_sortByCreated]
    exact List.mem_filter.mpr ⟨hmem, by simp [hstat]⟩

/-- C10 witness: concrete lock of a pending row; the locked row is still
pending and still listed. -/
theorem c10_witness :
    ({ dbRowP with locked_by := some "pc1", locked_at := some 5 } : DB.Req) ∈
      DB.get_pending_requests (DB.lock_request "g" "00001" "pc1" 5 [dbRowP]).1 := by
  have h := c10_locked_row_stays_pending [dbRowP] "g" "00001" "pc1" 5
  exact (h.2 dbRowP (by decide) (by decide)).2.2

/-- C1 counterexample: the claim fails on `app.py`.  Its
`update_request_status` (lines 159-187) has no `status = 'pending'` guard:
after a first accepted report (`success` by pc1), a second report with a
different status (`failed` by pc2) is also accepted (`updated = true`) and
overwrites the stored record — the LAST caller wins, not the first, and the
second caller never observes `accepted = false`. -/
theorem c1_counterexample :
    (App.update_request_status "g" "00001" "success" (some "pc1") 10
      [appRowP]).2 = true ∧
    (App.update_request_status "g" "00001" "failed" (some "pc2") 20
      (App.update_request_status "g" "00001" "success" (some "pc1") 10
        [appRowP]).1).2 = true ∧
    (App.update_request_status "g" "00001" "failed" (some "pc2") 20
      (App.update_request_status "g" "00001" "success" (some "pc1") 10
        [appRowP]).1).1 =
      [{ appRowP with
          status := "failed", locked_by := some "pc2",
          completed_at := some 20 }] := by
  decide

/-- C1 amended: the claimed conditional-completion contract holds for
`database.py`'s `update_request_status` (lines 134-149): it succeeds and
sets `completed_at` only while the stored status is `pending`, returns false
otherwise leaving the store unchanged, and of two completion reports with
different statuses the first wins and the second observes false with the
first status still stored.  (`app.py`'s variant updates unconditionally —
see the counterexample.) -/
theorem c1_first_report_wins (rows : List DB.Req) (genre rid st1 st2 : String)
    (pc1 pc2 : Option String) (t1 t2 : Nat)
    (hpend : ∀ r ∈ rows, DB.reqKeyIs genre rid r = true → r.status = "pending")
    (hst1 : st1 ≠ "pending") :
    ((DB.update_request_status genre rid st1 pc1 t1 rows).2 = true ↔
      ∃ r ∈ rows, DB.reqKeyIs genre rid r = true) ∧
    ((DB.update_request_status genre rid st1 pc1 t1 rows).2 = false →
      (DB.update_request_status genre rid st1 pc1 t1 rows).1 = rows) ∧
    (∀ r ∈ rows, DB.reqKeyIs genre rid r = true →
      ({ r with
          status := st1, completed_at := some t1,
          locked_by := pc1 } : DB.Req) ∈
        (DB.update_request_status genre rid st1 pc1 t1 rows).1) ∧
    (DB.update_request_status genre rid st2 pc2 t2
      (DB.update_request_status genre rid st1 pc1 t1 rows).1).2 = false ∧
    (DB.update_request_status genre rid st2 pc2 t2
      (DB.update_request_status genre rid st1 pc1 t1 rows).1).1 =
      (DB.update_request_status genre rid st1 pc1 t1 rows).1 ∧
    (∀ r ∈ (DB.update_request_status genre rid st1 pc1 t1 rows).1,
      DB.reqKeyIs genre rid r = true → r.status = st1) := by
  have hall : ∀ x ∈ (DB.update_request_status genre rid st1 pc1 t1 rows).1,
      (DB.reqKeyIs genre rid x && x.status == "pending") = false := by
    intro x hx
    simp only [DB.update_request_status] at hx
    rcases mem_updWhere hx with ⟨r0, _, _, rfl⟩ | ⟨hx2, hpx⟩
    · simp [hst1]
    · exact hpx
  refine ⟨?_, ?_, ?_, ?_, ?_, ?_⟩
  · simp only [DB.update_request_status, decide_eq_true_eq]
    rw [countWhere_pos]
    constructor
    · rintro ⟨r, hr, hp⟩
      exact ⟨r, hr, (Bool.and_eq_true _ _ |>.mp hp).1⟩
    · rintro ⟨r, hr, hk⟩
      exact ⟨r, hr, by simp [hk, hpend r hr hk]⟩
  · intro hfalse
    simp only [DB.update_request_status, decide_eq_true_eq] at hfalse ⊢
    apply updWhere_eq_self
    intro r hr
    by_contra hc
    simp only [Bool.not_eq_false] at hc
    exact absurd (countWhere_pos.mpr ⟨r, hr, hc⟩) (by simpa using hfalse)
  · intro r hr hk
    simp only [DB.update_request_status]
    exact updWhere_mem_true hr (by simp [hk, hpend r hr hk])
  · simp only [DB.update_request_status, decide_eq_true_eq] at hall ⊢
    have h0 := countWhere_eq_zero.mpr hall
    simp only [DB.update_request_status] at h0
    simp [h0]
  · simp only [DB.update_request_status] at hall ⊢
    exact updWhere_eq_self hall
  · intro r hr hk
    simp only [DB.update_request_status] at hr
    rcases mem_updWhere hr with ⟨r0, _, _, rfl⟩ | ⟨hr2, hpx⟩
    · rfl
    · rw [hk, hpend r hr2 hk] at hpx
      simp at hpx

/-- C1 witness: concrete two-report run (`success` then `failed`) on a
single pending row of the `database.py` store. -/
theorem c1_witness :
    (DB.update_request_status "g" "00001" "success" (some "pc1") 10
      [dbRowP]).2 = true ∧
    (DB.update_request_status "g" "00001" "failed" (some "pc2") 20
      (DB.update_request_status "g" "00001" "success" (some "pc1") 10
        [dbRowP]).1).2 = false := by
  have h := c1_first_report_wins [dbRowP] "g" "00001" "success" "failed"
    (some "pc1") (some "pc2") 10 20 (by decide) (by decide)
  exact ⟨h.1.mpr ⟨dbRowP, by decide, by decide⟩, h.2.2.2.1⟩

/-- C5 counterexample: the claim fails on `app.py`.  Its `release_stale_locks`
(lines 217-237) keys on `status = 'locked' AND created_at < threshold` — the
`app.py` schema has no `locked_at` column at all — so a row whose lock was
acquired an instant ago is still reverted to `pending` whenever the REQUEST
is old, contradicting "every row whose lock is not stale by locked_at is
left completely unchanged". -/
theorem c5_counterexample :
    (App.release_stale_locks 500
      [{ appRowP with status := "locked", locked_by := some "pc1" }]).1 =
      [appRowP] ∧
    ({ appRowP with status := "locked", locked_by := some "pc1" } : App.Req)
      ≠ appRowP := by
  decide

/-- C5 amended: the claimed frame condition holds for `database.py`'s
`release_stale_locks` (lines 185-204): it modifies only `pending` rows whose
non-NULL `locked_at` is older than the threshold, clearing
`locked_by`/`locked_at` and leaving the row pending; terminal rows and rows
whose lock is not stale by `locked_at` are left completely unchanged.
(`app.py`'s variant keys on `status='locked'` and `created_at` instead —
see the counterexample.) -/
theorem c5_release_only_stale_pending (cutoff : Nat) (rows : List DB.Req) :
    (∀ r ∈ rows, isTerminalStatus r.status = true →
      r ∈ (DB.release_stale_locks cutoff rows).1) ∧
    (∀ r ∈ rows, (r.locked_by != none && optLt r.locked_at cutoff &&
        r.status == "pending") = false →
      r ∈ (DB.release_stale_locks cutoff rows).1) ∧
    (∀ r ∈ rows, (r.locked_by != none && optLt r.locked_at cutoff &&
        r.status == "pending") = true →
      ({ r with locked_by := none, locked_at := none } : DB.Req) ∈
        (DB.release_stale_locks cutoff rows).1) ∧
    (∀ x ∈ (DB.release_stale_locks cutoff rows).1, x ∈ rows ∨
      ∃ r ∈ rows, r.status = "pending" ∧ r.locked_by ≠ none ∧
        (∃ t, r.locked_at = some t ∧ t < cutoff) ∧
        x = { r with locked_by := none, locked_at := none } ∧
        x.status = "pending") := by
  refine ⟨?_, ?_, ?_, ?_⟩
  · intro r hr hterm
    simp only [DB.release_stale_locks]
    apply updWhere_mem_false hr
    simp [isTerminalStatus_ne_pending hterm]
  · intro r hr hp
    simp only [DB.release_stale_locks]
    exact updWhere_mem_false hr hp
  · intro r hr hp
    simp only [DB.release_stale_locks]
    exact updWhere_mem_true hr hp
  · intro x hx
    simp only [DB.release_stale_locks] at hx
    rcases mem_updWhere hx with ⟨r0, hr0, hp0, rfl⟩ | ⟨hx2, _⟩
    · right
      simp only [Bool.and_eq_true, bne_iff_ne, beq_iff_eq] at hp0
      obtain ⟨⟨hlb, hla⟩, hst⟩ := hp0
      refine ⟨r0, hr0, hst, hlb, ?_, rfl, hst⟩
      cases hcase : r0.locked_at with
      | none => rw [hcase] at hla; simp [optLt] at hla
      | some t =>
        rw [hcase] at hla
        exact ⟨t, rfl, by simpa [optLt] using hla⟩
    · left; exact hx2

/-- C5 witness: an unlocked pending row is untouched; a row with a stale
lock (locked_at 0 against cutoff 100) is reverted to unlocked pending. -/
theorem c5_witness :
    dbRowP ∈ (DB.release_stale_locks 100 [dbRowP]).1 ∧
    dbRowP ∈ (DB.release_stale_locks 100
      [{ dbRowP with locked_by := some "pc1", locked_at := some 0 }]).1 := by
  refine ⟨(c5_release_only_stale_pending 100 [dbRowP]).2.1 dbRowP
    (by decide) (by decide), ?_⟩
  have h := (c5_release_only_stale_pending 100
    [{ dbRowP with locked_by := some "pc1", locked_at := some 0 }]).2.2.1
    { dbRowP with locked_by := some "pc1", locked_at := some 0 }
    (by decide) (by decide)
  simpa using h

/-- C6 counterexample: the claim fails on `app.py`.  Its
`timeout_old_requests` (lines 239-259) performs the same transition but
returns only the COUNT of affected rows: two different stores holding
different pending rows produce the identical return value `1`, so the
return cannot be "those pre-transition rows". -/
theorem c6_counterexample :
    (App.timeout_old_requests 100 200 [appRowP]).2 =
      (App.timeout_old_requests 100 200 [appRowP2]).2 ∧
    appRowP ≠ appRowP2 ∧
    (App.timeout_old_requests 100 200 [appRowP]).2 = 1 := by
  decide

/-- C6 amended: `database.py`'s `timeout_old_requests` (lines 206-235)
transitions to `timeout` exactly the rows still `pending` and older than the
threshold, returns those pre-transition rows (selected by the very same
predicate), and across two invocations never returns the same request twice.
(`app.py`'s variant makes the same transition but returns only the count —
see the counterexample.) -/
theorem c6_escalate_exact_and_idempotent (cutoff1 now1 cutoff2 now2 : Nat)
    (rows : List DB.Req)
    (hkeys : (rows.map fun r => (r.genre, r.request_id)).Nodup) :
    (DB.timeout_old_requests cutoff1 now1 rows).2 =
      (rows.filter (DB.timeoutPred cutoff1)).map (fun r =>
        { genre := r.genre, request_id := r.request_id,
          callback_url := r.callback_url }) ∧
    (∀ r ∈ rows, DB.timeoutPred cutoff1 r = true →
      ({ r with status := "timeout", completed_at := some now1 } : DB.Req) ∈
        (DB.timeout_old_requests cutoff1 now1 rows).1) ∧
    (∀ r ∈ rows, DB.timeoutPred cutoff1 r = false →
      r ∈ (DB.timeout_old_requests cutoff1 now1 rows).1) ∧
    (∀ t1 ∈ (DB.timeout_old_requests cutoff1 now1 rows).2,
      ∀ t2 ∈ (DB.timeout_old_requests cutoff2 now2
        (DB.timeout_old_requests cutoff1 now1 rows).1).2,
      (t1.genre, t1.request_id) ≠ (t2.genre, t2.request_id)) := by
  refine ⟨rfl, ?_, ?_, ?_⟩
  · intro r hr hp
    simp only [DB.timeout_old_requests]
    exact updWhere_mem_true hr hp
  · intro r hr hp
    simp only [DB.timeout_old_requests]
    exact updWhere_mem_false hr hp
  · intro t1 h1 t2 h2 heq
    simp only [DB.timeout_old_requests] at h1 h2
    rcases List.mem_map.mp h1 with ⟨r, hrf, hproj1⟩
    rcases List.mem_filter.mp hrf with ⟨hr, hpred1⟩
    rcases List.mem_map.mp h2 with ⟨x, hxf, hproj2⟩
    rcases List.mem_filter.mp hxf with ⟨hxmem, hpred2⟩
    have hxpending : x.status = "pending" := by
      have := (Bool.and_eq_true _ _ |>.mp hpred2).1
      exact beq_iff_eq.mp this
    rcases mem_updWhere hxmem with ⟨r0, _, _, rfl⟩ | ⟨hx2, hpx⟩
    · simp at hxpending
    · have h1 : (t1.genre, t1.request_id) = (r.genre, r.request_id) := by
        rw [← hproj1]
      have h2 : (t2.genre, t2.request_id) = (x.genre, x.request_id) := by
        rw [← hproj2]
      have hkeyeq : (fun q : DB.Req => (q.genre, q.request_id)) x =
          (fun q : DB.Req => (q.genre, q.request_id)) r := by
        simp only []
        rw [← h2, ← heq]
        exact h1
      have hxr : x = r := List.inj_on_of_nodup_map hkeys hx2 hr hkeyeq
      simp [hxr, hpred1] at hpx

/-- C6 witness: a pending row of age 0 against threshold 100 is selected,
returned, and transitioned to `timeout`. -/
theorem c6_witness :
    ({ dbRowP with status := "timeout", completed_at := some 200 } : DB.Req) ∈
      (DB.timeout_old_requests 100 200 [dbRowP]).1 := by
  have h := c6_escalate_exact_and_idempotent 100 200 300 400 [dbRowP]
    (by decide)
  exact h.2.1 dbRowP (by decide) (by decide)

/-- C2 counterexample: the claim fails on the code.  A request reaches the
terminal status `success` through an accepted worker report
(`receive_response`, app.py lines 582-611) and another reaches `timeout`
through the janitor (`scheduled_tasks` → `timeout_old_requests`, lines
838-841 and 239-259), yet the set of outbound POSTs performed is empty in
both cases: no component of the code ever POSTs to the stored
`callback_url`. -/
theorem c2_counterexample :
    (App.receive_response "g" "00001" "success" (some "pc1") 10
      [appRowP]).2.1 = true ∧
    (App.receive_response "g" "00001" "success" (some "pc1") 10
      [appRowP]).1 =
      [{ appRowP with
          status := "success", locked_by := some "pc1",
          completed_at := some 10 }] ∧
    (App.receive_response "g" "00001" "success" (some "pc1") 10
      [appRowP]).2.2 = [] ∧
    (App.scheduled_tasks 700 [appRowP]).1 =
      [{ appRowP with status := "timeout", completed_at := some 700 }] ∧
    (App.scheduled_tasks 700 [appRowP]).2 = [] := by
  decide

/-- C2 amended: no outbound callback is ever dispatched.  `callback_url` is
stored and echoed in listings, but the terminal transitions — an accepted
worker report via `receive_response` and janitor timeout escalation — only
update the store; the handler's sole effects are the row update and its
boolean result, which originators observe by polling the result endpoint
(the updated row carries the reported status). -/
theorem c2_no_callback_dispatch (genre rid st : String) (pc : Option String)
    (now : Nat) (rows : List App.Req) :
    (App.receive_response genre rid st pc now rows).2.2 = [] ∧
    (App.scheduled_tasks now rows).2 = [] ∧
    (App.receive_response genre rid st pc now rows).1 =
      (App.update_request_status genre rid st pc now rows).1 ∧
    ((App.receive_response genre rid st pc now rows).2.1 = true ↔
      ∃ r ∈ rows, (r.genre == genre && r.id == rid) = true) ∧
    (∀ r ∈ (App.receive_response genre rid st pc now rows).1,
      (r.genre == genre && r.id == rid) = true → r.status = st) := by
  refine ⟨rfl, rfl, rfl, ?_, ?_⟩
  · simp only [App.receive_response, App.update_request_status,
      decide_eq_true_eq]
    exact countWhere_pos
  · intro r hr hk
    simp only [App.receive_response, App.update_request_status] at hr
    rcases mem_updWhere hr with ⟨r0, _, _, rfl⟩ | ⟨_, hpx⟩
    · rfl
    · rw [hk] at hpx
      cases hpx

/-- C2 witness: a concrete accepted report with empty outbound effects. -/
theorem c2_witness :
    (App.receive_response "g" "00001" "failed" (some "pc9") 33
      [appRowP]).2.1 = true ∧
    (App.receive_response "g" "00001" "failed" (some "pc9") 33
      [appRowP]).2.2 = [] := by
  have h := c2_no_callback_dispatch "g" "00001" "failed" (some "pc9") 33
    [appRowP]
  exact ⟨h.2.2.2.1.mpr ⟨appRowP, by decide, by decide⟩, h.1⟩

/-- C4: `create_request` (app.py lines 94-114) arms a deletion timer of 120
seconds for every request it actually creates (a create that trips the
`id` primary key raises before arming anything), and
`delete_request_after_timeout`
(lines 116-130) removes the matching row unconditionally — whatever its
status — after which `get_request_detail` returns nothing; 120 seconds is
below both the janitor's 10-minute timeout age and the 30-day retention
age, so neither ever sees a row that the timer has already deleted. -/
theorem c4_unconditional_expiry (genre callback_url : String)
    (data : Option String) (uuid_draw : String) (now : Nat)
    (rows rows2 : List App.Req) (rid : String) :
    (∀ o, App.create_request genre callback_url data uuid_draw now rows =
      some o → o.2.2 = App.request_delete_delay) ∧
    App.request_delete_delay < App.janitor_timeout_age ∧
    App.request_delete_delay < App.retention_age ∧
    App.get_request_detail genre rid
      (App.delete_request_after_timeout genre rid rows2) = none ∧
    (∀ r ∈ rows2, (r.id == rid && r.genre == genre) = true →
      r ∉ App.delete_request_after_timeout genre rid rows2) := by
  refine ⟨?_, by decide, by decide, ?_, ?_⟩
  · intro o heq
    simp only [App.create_request] at heq
    split at heq
    · cases heq
    · obtain rfl := Option.some.inj heq
      rfl
  · unfold App.get_request_detail App.delete_request_after_timeout
    rw [List.find?_eq_none]
    intro r hr hcontra
    have hkept := (List.mem_filter.mp hr).2
    simp only [Bool.not_eq_true', Bool.and_eq_true, beq_iff_eq] at hkept hcontra
    simp only [Bool.and_eq_false_iff, beq_eq_false_iff_ne] at hkept
    rcases hkept with h | h
    · exact h hcontra.2
    · exact h hcontra.1
  · intro r hr hk hmem
    have h2 := (List.mem_filter.mp hmem).2
    rw [hk] at h2
    cases h2

/-- C4 witness: an already-successful row is deleted all the same, and the
timer delay is below the janitor threshold. -/
theorem c4_witness :
    ({ appRowP with status := "success", completed_at := some 5 } : App.Req) ∉
      App.delete_request_after_timeout "g" "00001"
        [{ appRowP with status := "success", completed_at := some 5 }] ∧
    App.request_delete_delay < App.janitor_timeout_age := by
  have h := c4_unconditional_expiry "g" "cb" none "abc" 0 []
    [{ appRowP with status := "success", completed_at := some 5 }] "00001"
  exact ⟨h.2.2.2.2 _ (by decide) (by decide), h.2.1⟩

theorem DB.lookupCounter_bump (genre : String) (cs : DB.Counters) :
    DB.lookupCounter genre (DB.bumpCounter genre cs) =
      (DB.lookupCounter genre cs).map (fun c => c + 1) := by
  induction cs with
  | nil => rfl
  | cons e t ih =>
    unfold DB.bumpCounter DB.lookupCounter at ih ⊢
    simp only [List.map_cons]
    by_cases h : e.1 == genre
    · rw [if_pos h]
      rw [List.find?_cons_of_pos (p := fun q => q.1 == genre)
          (a := (e.1, e.2 + 1)) _ h]
      rw [List.find?_cons_of_pos (p := fun q => q.1 == genre) (a := e) _ h]
      rfl
    · rw [if_neg h]
      rw [List.find?_cons_of_neg (p := fun q => q.1 == genre) (a := e) _ h]
      rw [List.find?_cons_of_neg (p := fun q => q.1 == genre) (a := e) _ h]
      exact ih

theorem DB.get_next_request_id_spec (genre : String) (cs : DB.Counters)
    (c0 : Nat) (h : DB.lookupCounter genre cs = some c0) :
    DB.get_next_request_id genre cs =
      some (DB.bumpCounter genre cs, pad5 (c0 + 1)) := by
  have hb : DB.lookupCounter genre (DB.bumpCounter genre cs) =
      some (c0 + 1) := by
    rw [DB.lookupCounter_bump, h]
    rfl
  simp only [DB.get_next_request_id, hb]

theorem DB.createN_spec (genre cb : String) (now : Nat) :
    ∀ (N : Nat) (cs : DB.Counters) (rows : List DB.Req) (c0 : Nat),
    DB.lookupCounter genre cs = some c0 →
    ∃ s2 ids, DB.createN genre cb now N (cs, rows) = some (s2, ids) ∧
      ids = (List.range N).map (fun k => pad5 (c0 + k + 1)) ∧
      DB.lookupCounter genre s2.1 = some (c0 + N) := by
  intro N
  induction N with
  | zero =>
    intro cs rows c0 h
    exact ⟨(cs, rows), [], rfl, by simp, by simpa using h⟩
  | succ n ih =>
    intro cs rows c0 h
    have hnext := DB.get_next_request_id_spec genre cs c0 h
    have hb : DB.lookupCounter genre (DB.bumpCounter genre cs) =
        some (c0 + 1) := by
      rw [DB.lookupCounter_bump, h]
      rfl
    obtain ⟨s2, ids, hrec, hids, hcount⟩ := ih (DB.bumpCounter genre cs)
      (rows ++ [{ genre := genre, request_id := pad5 (c0 + 1), callback_url := cb, status := "pending", locked_by := none, locked_at := none, created_at := now, completed_at := none }])
      (c0 + 1) hb
    refine ⟨s2, pad5 (c0 + 1) :: ids, ?_, ?_, ?_⟩
    · simp only [DB.createN, DB.create_request, hnext]
      rw [hrec]
    · rw [hids, List.range_succ_eq_map]
      simp only [List.map_cons, List.map_map, Function.comp]
      congr 1
      apply List.map_congr_left
      intro k _
      congr 1
      omega
    · have e : c0 + 1 + n = c0 + (n + 1) := by omega
      rw [e] at hcount
      exact hcount

/-- C3 counterexample: the claim fails on `app.py`.  Its `create_request`
(lines 94-114) derives the identifier from a random uuid4 prefix
(`str(uuid.uuid4())[:5].zfill(5)`), not from any counter: the identifier
it allocates here, `"0000a"`, is not the zero-padded decimal rendering of
any counter value — rendering its decoding gives a different string, while
a genuine `pad5 c` decodes back to `c` (`decodeDec_pad5`) — so it is
neither contiguous with anything nor a counter increment.  And when a
second create draws a colliding prefix, the `id` primary key makes the
insert raise `IntegrityError`: the call allocates nothing at all instead
of the next contiguous identifier. -/
theorem c3_counterexample :
    App.create_request "g" "cb" none "0000a" 0 [] =
      some ([{ id := "0000a", genre := "g", callback_url := "cb", status := "pending", locked_by := none, created_at := 0, completed_at := none, data := none }], "0000a", 120) ∧
    pad5 (decodeDec "0000a") ≠ "0000a" ∧
    App.create_request "g" "cb" none "0000a" 1
      [{ id := "0000a", genre := "g", callback_url := "cb", status := "pending", locked_by := none, created_at := 0, completed_at := none, data := none }] = none := by
  decide

/-- C3 amended: under `database.py`'s counter allocator
(`get_next_request_id` / `create_request`), each allocation increments the
genre's counter by exactly one and renders it zero-padded to width 5, so the
identifiers allocated by N create calls are the renderings of the N
consecutive counter values — pairwise distinct, no gaps, no duplicates.
(`app.py`'s `create_request` uses a random uuid prefix instead — see the
counterexample.) -/
theorem c3_counter_allocation_contiguous (genre cb : String) (now : Nat)
    (N : Nat) (cs : DB.Counters) (rows : List DB.Req) (c0 : Nat)
    (h : DB.lookupCounter genre cs = some c0) :
    (∀ cs2 rid, DB.get_next_request_id genre cs = some (cs2, rid) →
      rid = pad5 (c0 + 1) ∧ DB.lookupCounter genre cs2 = some (c0 + 1)) ∧
    (∃ s2 ids, DB.createN genre cb now N (cs, rows) = some (s2, ids) ∧
      ids = (List.range N).map (fun k => pad5 (c0 + k + 1)) ∧
      ids.Nodup ∧
      DB.lookupCounter genre s2.1 = some (c0 + N)) := by
  constructor
  · intro cs2 rid heq
    rw [DB.get_next_request_id_spec genre cs c0 h] at heq
    injection heq with h2
    injection h2 with hcs hrid
    subst hcs
    subst hrid
    refine ⟨rfl, ?_⟩
    rw [DB.lookupCounter_bump, h]
    rfl
  · obtain ⟨s2, ids, hrun, hids, hcount⟩ := DB.createN_spec genre cb now N
      cs rows c0 h
    refine ⟨s2, ids, hrun, hids, ?_, hcount⟩
    rw [hids]
    refine List.Nodup.map ?_ (List.nodup_range N)
    intro a b hab
    have := pad5_injective hab
    omega

/-- C3 witness: two creates against a provisioned genre allocate the
consecutive padded identifiers 00001 and 00002. -/
theorem c3_witness :
    ∃ s2 ids,
      DB.createN "logincheckrequest" "http://cb" 0 2
        (DB.initCounters, []) = some (s2, ids) ∧
      ids = ["00001", "00002"] ∧ ids.Nodup ∧
      DB.lookupCounter "logincheckrequest" s2.1 = some 2 := by
  obtain ⟨s2, ids, hrun, hids, hnodup, hcount⟩ :=
    (c3_counter_allocation_contiguous "logincheckrequest" "http://cb" 0 2
      DB.initCounters [] 0 (by decide)).2
  refine ⟨s2, ids, hrun, ?_, hnodup, hcount⟩
  rw [hids]
  decide

/-- C8 counterexample: the claim fails on the code.  Starting from the empty
store, create a request and let a worker report status `timeout` through
`/api/response` (app.py accepts any status string): `update_request_status`
(line 170) sets `completed_at` only for `success`/`failed`, so the stored
row ends in the TERMINAL status `timeout` with `completed_at` NULL — a
reachable state violating "completed_at is non-null iff status is
terminal". -/
theorem c8_counterexample :
    App.Reach [appRowT] ∧ isTerminalStatus appRowT.status = true ∧
    appRowT.completed_at = none := by
  refine ⟨?_, by decide, rfl⟩
  have h0 : App.Reach [] := App.Reach.init
  have h1 := @App.Reach.create []
    [{ id := "0000a", genre := "g", callback_url := "http://cb", status := "pending", locked_by := none, created_at := 0, completed_at := none, data := none }]
    "0000a" 120 "g" "http://cb" none "0000a" 0 h0 (by decide)
  have h2 := App.Reach.update "g" "0000a" "timeout" (some "pc") 5 h1
  have e : (App.update_request_status "g" "0000a" "timeout" (some "pc") 5
      [{ id := "0000a", genre := "g", callback_url := "http://cb", status := "pending", locked_by := none, created_at := 0, completed_at := none, data := none }]).1 =
      [appRowT] := by decide
  rwa [e] at h2

/-- C8 amended: over `database.py`'s operations — create, conditional
update restricted to the terminal statuses workers are specified to report,
lock, stale-lock release, timeout escalation and purge — every reachable
state satisfies: `completed_at` is non-null iff `status` is terminal.
(`app.py`'s unconditional update breaks the invariant when a worker reports
status `timeout` — see the counterexample.) -/
theorem c8_completed_iff_terminal (s : DB.Counters × List DB.Req)
    (h : DB.Reach s) :
    ∀ r ∈ s.2, (r.completed_at ≠ none ↔ isTerminalStatus r.status = true) := by
  induction h with
  | init => intro r hr; simp at hr
  | create genre cb now hre heq ih =>
    intro r hr
    rename_i s0 s2 rid
    revert heq
    unfold DB.create_request
    cases hnext : DB.get_next_request_id genre s0.1 with
    | none => intro heq; cases heq
    | some pr =>
      intro heq
      obtain ⟨cs2, rid2⟩ := pr
      simp only at heq
      injection heq with heq1
      injection heq1 with hs2 hrid
      rw [← hs2] at hr
      simp only [List.mem_append, List.mem_singleton] at hr
      rcases hr with hr | hr
      · exact ih r hr
      · subst hr
        simp [isTerminalStatus]
  | update genre rid st pc now hst hre ih =>
    intro r hr
    simp only [DB.update_request_status] at hr
    rcases mem_updWhere hr with ⟨r0, hr0, hp0, rfl⟩ | ⟨hr2, _⟩
    · simp [hst]
    · exact ih r hr2
  | lock genre rid pc now hre ih =>
    intro r hr
    simp only [DB.lock_request] at hr
    rcases mem_updWhere hr with ⟨r0, hr0, hp0, rfl⟩ | ⟨hr2, _⟩
    · simpa using ih r0 hr0
    · exact ih r hr2
  | release cutoff hre ih =>
    intro r hr
    simp only [DB.release_stale_locks] at hr
    rcases mem_updWhere hr with ⟨r0, hr0, hp0, rfl⟩ | ⟨hr2, _⟩
    · simpa using ih r0 hr0
    · exact ih r hr2
  | escalate cutoff now hre ih =>
    intro r hr
    simp only [DB.timeout_old_requests] at hr
    rcases mem_updWhere hr with ⟨r0, hr0, hp0, rfl⟩ | ⟨hr2, _⟩
    · simp [isTerminalStatus]
    · exact ih r hr2
  | purge cutoff hre ih =>
    intro r hr
    simp only [DB.cleanup_old_requests] at hr
    exact ih r (List.mem_filter.mp hr).1

/-- C8 witness: the invariant instantiated at a concrete reachable state —
the store after one `create` against the provisioned genre. -/
theorem c8_witness :
    (({ genre := "logincheckrequest", request_id := pad5 1, callback_url := "http://cb", status := "pending", locked_by := none, locked_at := none, created_at := 0, completed_at := none } : DB.Req).completed_at ≠ none) ↔
      isTerminalStatus "pending" = true := by
  have h0 : DB.Reach (DB.initCounters, []) := DB.Reach.init
  have h1 := @DB.Reach.create (DB.initCounters, [])
    (DB.bumpCounter "logincheckrequest" DB.initCounters,
      [{ genre := "logincheckrequest", request_id := pad5 1, callback_url := "http://cb", status := "pending", locked_by := none, locked_at := none, created_at := 0, completed_at := none }])
    (pad5 1) "logincheckrequest" "http://cb" 0 h0 (by decide)
  exact c8_completed_iff_terminal _ h1 _ (by decide)
